import Mathlib

/-!
A shallow embedding, in Lean 4, of the core logic of the AI-MaigicLens
knowledge-base manager (`src/App.tsx`, `src/services/geminiService.ts`,
`src/types.ts`).  JavaScript strings are modelled as `List Char`; the
browser primitives used by the code (`atob`, `TextDecoder('utf-8')`) are
modelled concretely below; the remote Gemini calls are modelled by an
explicit outcome parameter, so every function of the source becomes a pure,
executable Lean function.
-/

/-- JavaScript strings are modelled as lists of characters; `String.length`,
`slice`, `+` on JS strings become `List.length`, `List.take`, `List.append`. -/
abbrev Str := List Char

/-- `SourceType` from `src/types.ts`. -/
inductive SourceType where
  | PDF
  | CSV
  | WEB
  | TEXT
deriving DecidableEq, Repr

/-- `ProcessingStatus` from `src/types.ts`. -/
inductive ProcessingStatus where
  | PENDING
  | PROCESSING
  | COMPLETED
  | ERROR
deriving DecidableEq, Repr

/-- The `role` field of `ChatMessage` (`'user' | 'model'`). -/
inductive ChatRole where
  | user
  | model
deriving DecidableEq, Repr

/-- `KnowledgeSource` from `src/types.ts`. -/
structure KnowledgeSource where
  id : Str
  partitionId : Str
  sequenceNumber : Nat
  name : Str
  type : SourceType
  content : Str
  url : Option Str
  dateAdded : Nat
  size : Option Str
  status : ProcessingStatus
  summary : Option Str
deriving DecidableEq, Repr

/-- `ChatMessage` from `src/types.ts` (the optional `isThinking` flag is
never set by the embedded code paths and is omitted). -/
structure ChatMessage where
  id : Str
  role : ChatRole
  text : Str
  timestamp : Nat
deriving DecidableEq, Repr

/-- `Partition` from `src/types.ts`. -/
structure Partition where
  id : Str
  name : Str
  description : Option Str
  isSystem : Bool
deriving DecidableEq, Repr

/-- The whitespace set used to model `String.prototype.trim` (the common
ASCII subset: space, tab, newline, carriage return). -/
def jsWhitespace (c : Char) : Bool :=
  c == ' ' || c == '\t' || c == '\n' || c == '\r'

/-- Model of JavaScript `s.trim()`: strip whitespace from both ends. -/
def jsTrim (s : Str) : Str :=
  ((s.dropWhile jsWhitespace).reverse.dropWhile jsWhitespace).reverse

/-- Model of JavaScript `s.endsWith(suf)`. -/
def endsWithL (s suf : Str) : Bool :=
  suf.isSuffixOf s

/-- Model of JavaScript `s.toLowerCase()` (ASCII letters, which is all the
extension tests in the source compare against). -/
def lowerL (s : Str) : Str :=
  s.map Char.toLower

/-- Sextet value of one base64 alphabet character (`A-Z a-z 0-9 + /`);
`none` for any character outside the alphabet (including `=`). -/
def b64Val (c : Char) : Option Nat :=
  if 'A' ≤ c ∧ c ≤ 'Z' then some (c.toNat - 65)
  else if 'a' ≤ c ∧ c ≤ 'z' then some (c.toNat - 97 + 26)
  else if '0' ≤ c ∧ c ≤ '9' then some (c.toNat - 48 + 52)
  else if c = '+' then some 62
  else if c = '/' then some 63
  else none

/-- Reassemble base64 sextets into bytes (groups of four sextets give three
bytes; a final group of three gives two bytes, of two gives one byte). -/
def b64Bytes : List Nat → List Nat
  | a :: b :: c :: d :: rest =>
      (a * 4 + b / 16) :: ((b % 16) * 16 + c / 4) :: ((c % 4) * 64 + d) :: b64Bytes rest
  | [a, b] => [a * 4 + b / 16]
  | [a, b, c] => [a * 4 + b / 16, (b % 16) * 16 + c / 4]
  | _ => []

/-- Strip up to two trailing `=` padding characters. -/
def b64StripPad (t : Str) : Str :=
  match t.reverse with
  | '=' :: '=' :: r => r.reverse
  | '=' :: r => r.reverse
  | _ => t

/-- Model of the browser's `atob` (WHATWG forgiving-base64 decode): remove
ASCII whitespace, strip at most two trailing `=` when the length is a
multiple of four, then fail (`none`, i.e. `InvalidCharacterError`) when the
remaining length is `1 mod 4` or any character is outside the alphabet. -/
def atobDecode (s : Str) : Option (List Nat) :=
  let t := s.filter (fun c => !jsWhitespace c)
  let t := if t.length % 4 = 0 then b64StripPad t else t
  if t.length % 4 = 1 then none
  else
    match t.mapM b64Val with
    | none => none
    | some sextets => some (b64Bytes sextets)

/-- Is `b` a UTF-8 continuation byte (`0x80-0xBF`)? -/
def utf8Cont (b : Nat) : Bool :=
  0x80 ≤ b && b ≤ 0xBF

/-- The Unicode replacement character `U+FFFD`. -/
def replChar : Char := Char.ofNat 0xFFFD

/-- Valid second byte of a three-byte UTF-8 sequence led by `b1`
(`E0` requires `A0-BF`, `ED` requires `80-9F`, the rest `80-BF`). -/
def utf8B2of3 (b1 b2 : Nat) : Bool :=
  if b1 = 0xE0 then 0xA0 ≤ b2 && b2 ≤ 0xBF
  else if b1 = 0xED then 0x80 ≤ b2 && b2 ≤ 0x9F
  else utf8Cont b2

/-- Valid second byte of a four-byte UTF-8 sequence led by `b1`
(`F0` requires `90-BF`, `F4` requires `80-8F`, the rest `80-BF`). -/
def utf8B2of4 (b1 b2 : Nat) : Bool :=
  if b1 = 0xF0 then 0x90 ≤ b2 && b2 ≤ 0xBF
  else if b1 = 0xF4 then 0x80 ≤ b2 && b2 ≤ 0x8F
  else utf8Cont b2

/-- Model of `new TextDecoder('utf-8').decode(bytes)` with the default
(non-fatal) error mode: a total decoder that substitutes `U+FFFD` for
ill-formed subsequences and resynchronises at the next byte — it never
throws, for any byte input. -/
def utf8Decode : List Nat → Str
  | [] => []
  | [b] =>
    if b < 0x80 then [Char.ofNat b] else [replChar]
  | [b, b2] =>
    if b < 0x80 then Char.ofNat b :: utf8Decode [b2]
    else if 0xC2 ≤ b ∧ b ≤ 0xDF then
      if utf8Cont b2 then [Char.ofNat ((b - 0xC0) * 0x40 + (b2 - 0x80))]
      else replChar :: utf8Decode [b2]
    else if 0xE0 ≤ b ∧ b ≤ 0xEF then
      if utf8B2of3 b b2 then [replChar]
      else replChar :: utf8Decode [b2]
    else if 0xF0 ≤ b ∧ b ≤ 0xF4 then
      if utf8B2of4 b b2 then [replChar]
      else replChar :: utf8Decode [b2]
    else replChar :: utf8Decode [b2]
  | [b, b2, b3] =>
    if b < 0x80 then Char.ofNat b :: utf8Decode [b2, b3]
    else if 0xC2 ≤ b ∧ b ≤ 0xDF then
      if utf8Cont b2 then
        Char.ofNat ((b - 0xC0) * 0x40 + (b2 - 0x80)) :: utf8Decode [b3]
      else replChar :: utf8Decode [b2, b3]
    else if 0xE0 ≤ b ∧ b ≤ 0xEF then
      if utf8B2of3 b b2 then
        if utf8Cont b3 then
          [Char.ofNat ((b - 0xE0) * 0x1000 + (b2 - 0x80) * 0x40 + (b3 - 0x80))]
        else replChar :: utf8Decode [b3]
      else replChar :: utf8Decode [b2, b3]
    else if 0xF0 ≤ b ∧ b ≤ 0xF4 then
      if utf8B2of4 b b2 then
        if utf8Cont b3 then [replChar]
        else replChar :: utf8Decode [b3]
      else replChar :: utf8Decode [b2, b3]
    else replChar :: utf8Decode [b2, b3]
  | b :: b2 :: b3 :: b4 :: rest =>
    if b < 0x80 then Char.ofNat b :: utf8Decode (b2 :: b3 :: b4 :: rest)
    else if 0xC2 ≤ b ∧ b ≤ 0xDF then
      if utf8Cont b2 then
        Char.ofNat ((b - 0xC0) * 0x40 + (b2 - 0x80)) :: utf8Decode (b3 :: b4 :: rest)
      else replChar :: utf8Decode (b2 :: b3 :: b4 :: rest)
    else if 0xE0 ≤ b ∧ b ≤ 0xEF then
      if utf8B2of3 b b2 then
        if utf8Cont b3 then
          Char.ofNat ((b - 0xE0) * 0x1000 + (b2 - 0x80) * 0x40 + (b3 - 0x80))
            :: utf8Decode (b4 :: rest)
        else replChar :: utf8Decode (b3 :: b4 :: rest)
      else replChar :: utf8Decode (b2 :: b3 :: b4 :: rest)
    else if 0xF0 ≤ b ∧ b ≤ 0xF4 then
      if utf8B2of4 b b2 then
        if utf8Cont b3 then
          if utf8Cont b4 then
            Char.ofNat ((b - 0xF0) * 0x40000 + (b2 - 0x80) * 0x1000
                + (b3 - 0x80) * 0x40 + (b4 - 0x80)) :: utf8Decode rest
          else replChar :: utf8Decode (b4 :: rest)
        else replChar :: utf8Decode (b3 :: b4 :: rest)
      else replChar :: utf8Decode (b2 :: b3 :: b4 :: rest)
    else replChar :: utf8Decode (b2 :: b3 :: b4 :: rest)

/-- `safeBase64ToText` (`src/services/geminiService.ts`, lines 11-23).
The `try` block runs `atob`, copies the binary string's char codes into a
byte array, and decodes it with a default-mode `TextDecoder` (which never
throws); so the `try` block throws exactly when `atob` does.  The `catch`
block then evaluates `atob(base64)` on the same input again — `atob` is
deterministic, so the fallback throws the same `InvalidCharacterError`,
which propagates to the caller (modelled as `Except.error`). -/
def safeBase64ToText (base64 : Str) : Except Str Str :=
  match atobDecode base64 with
  | some bytes => Except.ok (utf8Decode bytes)
  | none =>
    match atobDecode base64 with
    | some bytes => Except.ok (bytes.map Char.ofNat)
    | none => Except.error "InvalidCharacterError".data

/-- `MAX_TOTAL_CHARS` (`src/services/geminiService.ts`, line 6). -/
def MAX_TOTAL_CHARS : Nat := 1400000

/-- The truncation marker appended after a budget cut
(`src/services/geminiService.ts`, line 116). -/
def truncMarker : Str := "\n...[数据超长截断]...".data

/-- The per-document start sentinel (`geminiService.ts`, line 108). -/
def fileHeaderOf (s : KnowledgeSource) : Str :=
  "\n\n=== FILE_START: ".data ++ s.name ++ " (Source_ID: ".data ++ s.id ++ ") ===\n".data

/-- The per-document end sentinel (`geminiService.ts`, line 109). -/
def fileFooterOf (s : KnowledgeSource) : Str :=
  "\n=== FILE_END: ".data ++ s.name ++ " ===\n".data

/-- `s.name.toLowerCase().endsWith('.csv')` (`geminiService.ts`, line 91). -/
def isCsvName (name : Str) : Bool :=
  endsWithL (lowerL name) ".csv".data

/-- `content.split('\n').filter(l => l.trim().length > 0)`
(`geminiService.ts`, line 95). -/
def nonBlankLines (content : Str) : List Str :=
  (content.splitOn '\n').filter (fun l => !(jsTrim l).isEmpty)

/-- `lines[0]` (`geminiService.ts`, line 96); when `lines` is empty the JS
expression is `undefined`, which would stringify as `"undefined"` inside the
template literal. -/
def headerOf (content : Str) : Str :=
  (nonBlankLines content).headD "undefined".data

/-- The row index label `[Row_idx]` (`geminiService.ts`, line 100). -/
def rowLabel (idx : Nat) : Str :=
  "[Row_".data ++ (toString idx).data ++ "]".data

/-- The repeated-header chunk `\n(REPEATED_HEADER: header)\n` prepended to
every 50th data row (`geminiService.ts`, line 101). -/
def repeatedHeaderChunk (header : Str) : Str :=
  '\n' :: ("(REPEATED_HEADER: ".data ++ header ++ ")".data) ++ ['\n']

/-- The per-line body of `lines.map((line, idx) => ...)`
(`geminiService.ts`, lines 99-102). -/
def csvRow (header : Str) (idx : Nat) (line : Str) : Str :=
  if 0 < idx ∧ idx % 50 = 0 then
    repeatedHeaderChunk header ++ rowLabel idx ++ ' ' :: line
  else
    rowLabel idx ++ ' ' :: line

/-- `lines.map((line, idx) => ...)` unrolled with an explicit running index,
starting from `start` (the source starts at 0). -/
def csvRows (header : Str) : Nat → List Str → List Str
  | _, [] => []
  | idx, line :: rest => csvRow header idx line :: csvRows header (idx + 1) rest

/-- The CSV branch of `processedContent` (`geminiService.ts`, lines 94-103):
split into non-blank lines, take the first as header, label every row and
re-inject the header every 50 rows, then re-join with newlines. -/
def processCsvContent (content : Str) : Str :=
  List.intercalate "\n".data (csvRows (headerOf content) 0 (nonBlankLines content))

/-- `processedContent` for one source (`geminiService.ts`, lines 92-106):
CSV-named documents get the periodic-header treatment, all others pass
through unmodified. -/
def processedContentOf (s : KnowledgeSource) : Str :=
  if isCsvName s.name then processCsvContent s.content else s.content

/-- `MAX_TOTAL_CHARS - usedChars - fileHeader.length - fileFooter.length`
(`geminiService.ts`, line 111), computed over `Int` because the JS value
goes negative once a truncation has overfilled the buffer. -/
def availSpace (maxT usedChars : Nat) (s : KnowledgeSource) : Int :=
  (maxT : Int) - (usedChars : Int) -
    ((fileHeaderOf s).length : Int) - ((fileFooterOf s).length : Int)

/-- `sourceText` after the truncation check (`geminiService.ts`,
lines 114-117): when the content is longer than the remaining budget it is
cut there (`slice(0, availableSpace)`) and the marker is appended after the
cut, otherwise it passes through whole. -/
def sourceTextOf (avail : Int) (pc : Str) : Str :=
  if avail < (pc.length : Int) then pc.take avail.toNat ++ truncMarker
  else pc

/-- The context-accumulation loop of `analyzeData` (`geminiService.ts`,
lines 87-121), translated line by line: for each source compute the
remaining budget net of its header and footer; `break` (return the buffer)
when it is at or below 200; otherwise append the (possibly truncated)
source text wrapped in its sentinels and advance the used-character
count. -/
def assembleLoop (maxT : Nat) : List KnowledgeSource → Nat → Str → Str
  | [], _, contextBuffer => contextBuffer
  | s :: rest, usedChars, contextBuffer =>
    if availSpace maxT usedChars s ≤ 200 then contextBuffer
    else
      assembleLoop maxT rest
        (usedChars + (fileHeaderOf s).length +
          (sourceTextOf (availSpace maxT usedChars s) (processedContentOf s)).length +
          (fileFooterOf s).length)
        (contextBuffer ++ (fileHeaderOf s ++
          sourceTextOf (availSpace maxT usedChars s) (processedContentOf s) ++ fileFooterOf s))

/-- The same loop instrumented to record, per appended document, the
`sourceText` that was placed between its sentinels and whether it was
truncated; `assembleLoop` is proved below to be the concatenation of the
rendered entries. -/
def assembleEntries (maxT : Nat) : List KnowledgeSource → Nat → List (KnowledgeSource × Str × Bool)
  | [], _ => []
  | s :: rest, usedChars =>
    if availSpace maxT usedChars s ≤ 200 then []
    else
      (s, sourceTextOf (availSpace maxT usedChars s) (processedContentOf s),
        decide (availSpace maxT usedChars s < ((processedContentOf s).length : Int))) ::
        assembleEntries maxT rest
          (usedChars + (fileHeaderOf s).length +
            (sourceTextOf (availSpace maxT usedChars s) (processedContentOf s)).length +
            (fileFooterOf s).length)

/-- One appended document rendered back to its contribution to the buffer. -/
def renderEntry (e : KnowledgeSource × Str × Bool) : Str :=
  fileHeaderOf e.1 ++ e.2.1 ++ fileFooterOf e.1

/-- The assembled context for a (pre-filtered) document list under budget
`maxT`; the source runs this with `usedChars = 0` and an empty buffer. -/
def assembleContext (maxT : Nat) (validSources : List KnowledgeSource) : Str :=
  assembleLoop maxT validSources 0 []

/-- `sources.filter(s => s.content && s.content.length > 0)`
(`geminiService.ts`, line 81). -/
def validSourcesOf (sources : List KnowledgeSource) : List KnowledgeSource :=
  sources.filter (fun s => !s.content.isEmpty)

/-- `history.slice(-6)` (`geminiService.ts`, line 123): the most recent six
messages (all of them when fewer than six exist). -/
def historyWindow (history : List ChatMessage) : List ChatMessage :=
  history.drop (history.length - 6)

/-- `` `${h.role === 'user' ? '用户' : '你'}: ${h.text}` `` (line 123). -/
def formatMsg (h : ChatMessage) : Str :=
  (if h.role = ChatRole.user then "用户".data else "你".data) ++ ": ".data ++ h.text

/-- `history.slice(-6).map(...).join('\n')` (`geminiService.ts`, line 123). -/
def formatHistory (history : List ChatMessage) : Str :=
  List.intercalate "\n".data ((historyWindow history).map formatMsg)

/-- The fixed instruction text of the analysis prompt before the context
buffer (`geminiService.ts`, lines 127-133). -/
def promptHead : Str :=
  ("你现在是“所长的知识宝”高精度数据分析引擎。\n\n【核心指令：数据主权协议】\n" ++
   "1. **文件内容是唯一的真理**：严禁根据你的训练知识质疑、修改或否定文件中的数据。如果文件中写了“小鹏G7”，那么它就是真实存在的车型，严禁说“不存在”或“可能是G6/G9”。\n" ++
   "2. **禁止过度脑补**：不准合并看似相似但字符不同的配置名称（如 702 Max 和 702 Ultra 必须视为独立配置）。\n\n【原子化原始数据池】\n").data

/-- The fixed prompt text between the context buffer and the history block
(`geminiService.ts`, lines 135-137). -/
def promptMid : Str := "\n\n【对话历史】\n".data

/-- The fixed prompt text between the history block and the user query,
holding the four-step scan protocol (`geminiService.ts`, lines 139-145). -/
def promptTail : Str :=
  ("\n\n【执行算法：全量坐标扫描】\n" ++
   "- **第一步：行号锁定**。首先在心中列出所有包含提问关键词的 [Row_ID]。\n" ++
   "- **第二步：独立性验证**。对比搜寻到的每一行，检查销量、价格、配置等微小差异。\n" ++
   "- **第三步：总量核对**。在输出结论前，手动对搜寻到的所有行进行求和或计数校验。\n" ++
   "- **第四步：专业呈现**。使用 Markdown 表格列出所有检索到的行及其对应数据。\n\n【用户当前问题】\n").data

/-- The full `contents` payload of the one remote analysis call
(`geminiService.ts`, lines 127-146). -/
def buildPrompt (contextBuffer chatHistory query : Str) : Str :=
  promptHead ++ contextBuffer ++ promptMid ++ chatHistory ++ promptTail ++ query

/-- The prompt `analyzeData` sends for a given query, history and
(pre-filtered) document list. -/
def analysisPrompt (query : Str) (history : List ChatMessage)
    (validSources : List KnowledgeSource) : Str :=
  buildPrompt (assembleContext MAX_TOTAL_CHARS validSources) (formatHistory history) query

/-- The outcome of the one remote `generateContent` call inside
`analyzeData`: it either returns (with `response.text` possibly absent) or
throws with an error message. -/
inductive RemoteOutcome where
  | ok (text : Option Str)
  | err (msg : Str)
deriving DecidableEq, Repr

/-- The precondition message returned when no valid document is selected
(`geminiService.ts`, line 84). -/
def noDocsWarning : Str :=
  "⚠️ 知识库当前没有可供分析的有效文档，请在知识库分区导入资料。".data

/-- The default reply when the model returns empty text (line 153). -/
def noMatchMsg : Str := "检索完成，但在数据池中未发现匹配项。".data

/-- The inline error text built by the `catch` of `analyzeData` (line 156). -/
def analysisFailText (msg : Str) : Str := "❌ 深度分析失败: ".data ++ msg

/-- `analyzeData` (`geminiService.ts`, lines 78-158).  Returns the reply
string together with the request payload actually sent to the remote model
(`none` when the empty-document precondition fails before any call). -/
def analyzeData (query : Str) (history : List ChatMessage)
    (sources : List KnowledgeSource) (outcome : RemoteOutcome) : Str × Option Str :=
  let validSources := validSourcesOf sources
  if validSources.isEmpty then (noDocsWarning, none)
  else
    let prompt := analysisPrompt query history validSources
    match outcome with
    | RemoteOutcome.ok t =>
        (match t with
         | some s => if s.isEmpty then noMatchMsg else s
         | none => noMatchMsg, some prompt)
    | RemoteOutcome.err m => (analysisFailText m, some prompt)

/-- The content-kind classification of `processFiles` (`src/App.tsx`,
line 107): `file.name.toLowerCase().endsWith('.pdf')` chooses PDF,
otherwise `file.name.endsWith('.csv')` (no lower-casing) chooses CSV,
otherwise TEXT. -/
def classifySourceType (name : Str) : SourceType :=
  if endsWithL (lowerL name) ".pdf".data then SourceType.PDF
  else if endsWithL name ".csv".data then SourceType.CSV
  else SourceType.TEXT

/-- The classification rule as the claim words it, read uniformly and
literally: PDF when the name ends in `.pdf`, CSV when it ends in `.csv`,
TEXT otherwise (one fixed reading of "ends in" for both branches). -/
def claimClassifyLiteral (name : Str) : SourceType :=
  if endsWithL name ".pdf".data then SourceType.PDF
  else if endsWithL name ".csv".data then SourceType.CSV
  else SourceType.TEXT

/-- `(partitionId === 'all' || !partitionId) ? 'uncategorized' : partitionId`
(`src/App.tsx`, line 100). -/
def targetPartitionOf (partitionId : Str) : Str :=
  if partitionId = "all".data ∨ partitionId = [] then "uncategorized".data
  else partitionId

/-- The placeholder summary shown while a file is being processed
(`src/App.tsx`, line 112). -/
def processingSummary : Str := "正在应用数据主权协议并锚定坐标...".data

/-- One placeholder record of `filePlaceholders` (`src/App.tsx`,
lines 102-113): empty content, `PROCESSING` status, extension-classified
kind, and the (redirected) target partition. -/
def filePlaceholder (fileId : Str) (targetPartition : Str) (seq : Nat)
    (fileName : Str) (now : Nat) (sizeLabel : Str) : KnowledgeSource :=
  { id := fileId
    partitionId := targetPartition
    sequenceNumber := seq
    name := fileName
    type := classifySourceType fileName
    content := []
    url := none
    dateAdded := now
    size := some sizeLabel
    status := ProcessingStatus.PROCESSING
    summary := some processingSummary }

/-- The outcome of the remote classification call inside
`extractTextFromDocument`: `threw` covers a network throw and a
`JSON.parse` throw (both land in the same `catch`); `parsed` carries the
schema-validated response's `summary` field (`none` when absent). -/
inductive ClassifyOutcome where
  | threw (msg : Str)
  | parsed (summaryField : Option Str)
deriving DecidableEq, Repr

/-- The fallback summary substituted by the `catch` of
`extractTextFromDocument` (`geminiService.ts`, line 70). -/
def extractFallbackSummary : Str := "原始数据已就绪（自动识别异常）".data

/-- The default summary used when the parsed response has no (or an empty)
`summary` field (`geminiService.ts`, line 64). -/
def extractDefaultSummary : Str := "全量原始数据已载入".data

/-- `extractTextFromDocument` (`geminiService.ts`, lines 28-73).  The `try`
block decodes `base64Data` locally (line 32) before the remote call; on any
throw from the remote call or the response parse, the `catch` (lines 66-72)
re-decodes locally and substitutes the fallback summary.  When the local
decode itself throws, the `catch` re-runs the same decode and the error
escapes to the caller (modelled by `Except.error`). -/
def extractTextFromDocument (base64Data : Str) (outcome : ClassifyOutcome) :
    Except Str (Str × Str) :=
  match safeBase64ToText base64Data with
  | Except.error e => Except.error e
  | Except.ok rawContent =>
    match outcome with
    | ClassifyOutcome.threw _ => Except.ok (rawContent, extractFallbackSummary)
    | ClassifyOutcome.parsed f =>
        Except.ok (rawContent,
          match f with
          | some s => if s.isEmpty then extractDefaultSummary else s
          | none => extractDefaultSummary)

/-- The summary patched in when `extractTextFromDocument` rejects
(`src/App.tsx`, line 130). -/
def mountFailSummary : Str := "挂载失败，请检查文件编码".data

/-- The per-file completion step of `processFiles` (`src/App.tsx`,
lines 123-132): on resolution the placeholder gains the decoded content and
summary and flips to `COMPLETED`; on rejection it keeps its (empty) content
and flips to `ERROR` with the mount-failure summary. -/
def resolveDocument (placeholder : KnowledgeSource)
    (result : Except Str (Str × Str)) : KnowledgeSource :=
  match result with
  | Except.ok (text, summary) =>
      { placeholder with
          content := text
          summary := some summary
          status := ProcessingStatus.COMPLETED }
  | Except.error _ =>
      { placeholder with
          summary := some mountFailSummary
          status := ProcessingStatus.ERROR }

/-- The internal-drag branch of the per-partition `onDrop` handler
(`src/App.tsx`, lines 339-344): only when a source id was dragged AND the
target partition is not `'all'` is the document's `partitionId` rewritten
to the target; otherwise (in particular for the `'all'` target) the handler
falls through to the file branch, which does nothing for an internal drag,
leaving every document unchanged. -/
def partitionDropReassign (sources : List KnowledgeSource)
    (internalId : Str) (targetId : Str) : List KnowledgeSource :=
  if internalId ≠ [] ∧ targetId ≠ "all".data then
    sources.map (fun s =>
      if s.id = internalId then { s with partitionId := targetId } else s)
  else sources

/-- `handleSendMessage` (`src/App.tsx`, lines 226-241) as a function of the
conversation log: bail out when the trimmed query is empty or a request is
in flight; otherwise append the user message, run `analyzeData` against the
old log (its own `try/catch` turns every remote failure into a reply
string), and append the model message.  `now` and `now2` are the two
`Date.now()` readings. -/
def handleSendMessage (query : Str) (isAnalyzing : Bool)
    (log : List ChatMessage) (sources : List KnowledgeSource)
    (outcome : RemoteOutcome) (now now2 : Nat) : List ChatMessage :=
  if jsTrim query = [] ∨ isAnalyzing = true then log
  else
    let userMessage : ChatMessage :=
      { id := (toString now).data, role := ChatRole.user, text := query, timestamp := now }
    let result := (analyzeData query log sources outcome).1
    let aiMessage : ChatMessage :=
      { id := (toString (now + 1)).data, role := ChatRole.model, text := result, timestamp := now2 }
    (log ++ [userMessage]) ++ [aiMessage]

/-- The total length of the rendered entries of the instrumented loop. -/
def renderedLen (es : List (KnowledgeSource × Str × Bool)) : Nat :=
  ((es.map renderEntry).map List.length).sum

/-- A concrete document placeholder, as `processFiles` creates one for a
file named `a.csv` dropped into the `config` partition. -/
def demoPh : KnowledgeSource :=
  filePlaceholder "f1".data (targetPartitionOf "config".data) 1 "a.csv".data 0 "1.0 KB".data

/-- A concrete completed document living in the `config` partition. -/
def demoDoc : KnowledgeSource :=
  { id := "d1".data
    partitionId := "config".data
    sequenceNumber := 1
    name := "sales.csv".data
    type := SourceType.CSV
    content := "hi".data
    url := none
    dateAdded := 0
    size := none
    status := ProcessingStatus.COMPLETED
    summary := none }

/-- A concrete document whose content is empty (filtered out by
`analyzeData`'s precondition check). -/
def emptyDoc : KnowledgeSource :=
  { demoDoc with id := "d2".data, content := [] }

/-- A concrete CSV content with a header line and 50 data rows (the 50th
data row is the line `x` at index 50). -/
def demoCsvContent : Str :=
  (String.intercalate "\n" (["h"] ++ List.replicate 49 "a" ++ ["x"])).data

/-- Helper: the `catch` of `analyzeData` yields the inline error text when
the remote call throws and the precondition check passed. -/
theorem analyzeData_err_text (query : Str) (history : List ChatMessage)
    (sources : List KnowledgeSource) (m : Str)
    (hv : validSourcesOf sources ≠ []) :
    (analyzeData query history sources (RemoteOutcome.err m)).1 = analysisFailText m := by
  have h : (validSourcesOf sources).isEmpty = false := by
    cases h : (validSourcesOf sources).isEmpty with
    | false => rfl
    | true => exact absurd (List.isEmpty_iff.mp h) hv
  simp [analyzeData, h]

/-- C7: the claim says `safeBase64ToText` never throws to its caller and
falls back to a best-effort decode; but the `catch` block's fallback calls
`atob` again on the same input, so for an input `atob` rejects (here the
one-character string `!`) the fallback throws the same
`InvalidCharacterError`, which escapes to the caller. -/
theorem safeBase64ToText_throws_on_invalid :
    safeBase64ToText "!".data = Except.error "InvalidCharacterError".data := rfl

/-- C9 counterexample: under the claim's uniform literal reading of
"ends in" (`claimClassifyLiteral`), the file name `a.PDF` is classified
TEXT, but the code classifies it PDF because only the PDF test
lower-cases the name first.  (Under the uniform case-insensitive reading
the roles swap: `A.CSV` is claimed CSV but the code yields TEXT.) -/
theorem classify_counterexample :
    classifySourceType "a.PDF".data = SourceType.PDF ∧
    claimClassifyLiteral "a.PDF".data = SourceType.TEXT ∧
    SourceType.PDF ≠ SourceType.TEXT ∧
    classifySourceType "A.CSV".data = SourceType.TEXT := by
  refine ⟨rfl, rfl, by decide, rfl⟩

/-- C9 (amended): the content kind is PDF exactly when the lower-cased
name ends in `.pdf`; CSV exactly when the name is not such a PDF name and
ends in `.csv` case-sensitively; TEXT otherwise. -/
theorem classify_characterization (name : Str) :
    (classifySourceType name = SourceType.PDF ↔
      endsWithL (lowerL name) ".pdf".data = true) ∧
    (classifySourceType name = SourceType.CSV ↔
      (endsWithL (lowerL name) ".pdf".data = false ∧ endsWithL name ".csv".data = true)) ∧
    (classifySourceType name = SourceType.TEXT ↔
      (endsWithL (lowerL name) ".pdf".data = false ∧ endsWithL name ".csv".data = false)) := by
  unfold classifySourceType
  cases h1 : endsWithL (lowerL name) ".pdf".data <;>
    cases h2 : endsWithL name ".csv".data <;> simp

/-- C4: when every candidate document has empty content the filter leaves
nothing and `analyzeData` returns the deterministic warning without
issuing any remote request (payload component `none`), for every query,
history and remote outcome. -/
theorem analyze_empty_set_no_call (query : Str) (history : List ChatMessage)
    (sources : List KnowledgeSource) (outcome : RemoteOutcome)
    (h : validSourcesOf sources = []) :
    analyzeData query history sources outcome = (noDocsWarning, none) := by
  simp [analyzeData, h]

/-- C4 witness: a single empty-content document filters to the empty set
and the analysis returns the warning with no remote call. -/
theorem analyze_empty_set_no_call_witness :
    validSourcesOf [emptyDoc] = [] ∧
    analyzeData "q".data [] [emptyDoc] (RemoteOutcome.err "boom".data) =
      (noDocsWarning, none) :=
  ⟨rfl, analyze_empty_set_no_call "q".data [] [emptyDoc] (RemoteOutcome.err "boom".data) rfl⟩

/-- C6 counterexample: dropping the document `d1` (living in `config`)
onto the reserved `all` partition leaves its `partitionId` at `config` —
it is not redirected to `uncategorized` as the claim states. -/
theorem reassign_all_counterexample :
    (partitionDropReassign [demoDoc] "d1".data "all".data).map
        (fun s => s.partitionId) = ["config".data] ∧
    "config".data ≠ "uncategorized".data := by
  refine ⟨rfl, by decide⟩

/-- C6 (amended): a reassignment targeting the reserved `all` id is a
no-op (every document keeps its previous `partitionId`); file ingestion
targeting `all` is redirected to `uncategorized`; and no reassignment to a
non-`all` target can ever introduce `all` as a `partitionId`. -/
theorem reassign_never_all (sources : List KnowledgeSource) (internalId targetId : Str)
    (hall : sources.all (fun s => decide (s.partitionId ≠ "all".data)) = true)
    (ht : targetId ≠ "all".data) :
    partitionDropReassign sources internalId "all".data = sources ∧
    targetPartitionOf "all".data = "uncategorized".data ∧
    (partitionDropReassign sources internalId targetId).all
      (fun s => decide (s.partitionId ≠ "all".data)) = true := by
  refine ⟨by simp [partitionDropReassign], rfl, ?_⟩
  unfold partitionDropReassign
  split
  · rw [List.all_map, List.all_eq_true]
    intro s hs
    rw [List.all_eq_true] at hall
    have := hall s hs
    by_cases hid : s.id = internalId
    · simp [Function.comp, hid, ht]
    · simpa [Function.comp, hid] using this
  · exact hall

/-- C6 witness: on a concrete store holding `d1` in `config`, reassigning
to `sales` keeps the no-`all` invariant and the `all`-target no-op holds. -/
theorem reassign_never_all_witness :
    ([demoDoc].all (fun s => decide (s.partitionId ≠ "all".data)) = true) ∧
    (partitionDropReassign [demoDoc] "d1".data "all".data = [demoDoc] ∧
     targetPartitionOf "all".data = "uncategorized".data ∧
     (partitionDropReassign [demoDoc] "d1".data "sales".data).all
       (fun s => decide (s.partitionId ≠ "all".data)) = true) :=
  ⟨by decide, reassign_never_all [demoDoc] "d1".data "sales".data (by decide) (by decide)⟩

/-- C1 counterexample: for the file placeholder `demoPh` with valid base64
payload `aGk=` (decoding to `hi`) whose remote classification call throws,
the resulting record keeps the locally-decoded content and receives the
fallback summary — but its status is COMPLETED, not ERROR as the claim
states: `extractTextFromDocument` catches the failure itself, so
`processFiles`' success branch runs. -/
theorem extract_failure_status_counterexample :
    (resolveDocument demoPh
        (extractTextFromDocument "aGk=".data (ClassifyOutcome.threw "network error".data))).status
      = ProcessingStatus.COMPLETED ∧
    (resolveDocument demoPh
        (extractTextFromDocument "aGk=".data (ClassifyOutcome.threw "network error".data))).content
      = "hi".data ∧
    (resolveDocument demoPh
        (extractTextFromDocument "aGk=".data (ClassifyOutcome.threw "network error".data))).summary
      = some extractFallbackSummary ∧
    ProcessingStatus.COMPLETED ≠ ProcessingStatus.ERROR :=
  ⟨rfl, rfl, rfl, by decide⟩

/-- C1 (amended): when the local decode succeeds and the remote
classification call fails, the Document keeps content equal to the
locally-decoded text, gets the fallback human-readable summary, and is
marked COMPLETED; the ERROR status (with the mount-failure summary) is
reached exactly when the local decode itself throws. -/
theorem extract_failure_keeps_content (base64 raw e msg : Str) (ph : KnowledgeSource) :
    (safeBase64ToText base64 = Except.ok raw →
      resolveDocument ph (extractTextFromDocument base64 (ClassifyOutcome.threw msg)) =
        { ph with
            content := raw
            summary := some extractFallbackSummary
            status := ProcessingStatus.COMPLETED }) ∧
    (safeBase64ToText base64 = Except.error e →
      ∀ outcome, resolveDocument ph (extractTextFromDocument base64 outcome) =
        { ph with
            summary := some mountFailSummary
            status := ProcessingStatus.ERROR }) := by
  constructor
  · intro h
    simp [extractTextFromDocument, resolveDocument, h]
  · intro h outcome
    simp [extractTextFromDocument, resolveDocument, h]

/-- C1 witness: both branches at concrete inputs — the valid payload
`aGk=` with a thrown remote call yields a COMPLETED document holding `hi`,
and the invalid payload `!` yields an ERROR document. -/
theorem extract_failure_keeps_content_witness :
    (safeBase64ToText "aGk=".data = Except.ok "hi".data ∧
     resolveDocument demoPh
         (extractTextFromDocument "aGk=".data (ClassifyOutcome.threw "network".data)) =
       { demoPh with
           content := "hi".data
           summary := some extractFallbackSummary
           status := ProcessingStatus.COMPLETED }) ∧
    (safeBase64ToText "!".data = Except.error "InvalidCharacterError".data ∧
     resolveDocument demoPh
         (extractTextFromDocument "!".data (ClassifyOutcome.parsed none)) =
       { demoPh with
           summary := some mountFailSummary
           status := ProcessingStatus.ERROR }) :=
  ⟨⟨rfl, (extract_failure_keeps_content "aGk=".data "hi".data "e".data "network".data demoPh).1 rfl⟩,
   ⟨rfl, (extract_failure_keeps_content "!".data "hi".data "InvalidCharacterError".data
      "network".data demoPh).2 rfl (ClassifyOutcome.parsed none)⟩⟩

/-- C5: for an analysis turn whose trimmed query is non-empty and with no
request in flight, the log gains exactly the user message followed by
exactly one model message (in that order, nothing else); and whenever the
remote call fails after the precondition check passed, that model
message's text is the inline error string — the user's turn is never
dropped. -/
theorem send_appends_user_then_model (query : Str) (log : List ChatMessage)
    (sources : List KnowledgeSource) (outcome : RemoteOutcome) (now now2 : Nat)
    (hq : jsTrim query ≠ []) :
    handleSendMessage query false log sources outcome now now2 =
      log ++
        [{ id := (toString now).data, role := ChatRole.user, text := query, timestamp := now },
         { id := (toString (now + 1)).data, role := ChatRole.model,
           text := (analyzeData query log sources outcome).1, timestamp := now2 }] ∧
    (∀ m, outcome = RemoteOutcome.err m → validSourcesOf sources ≠ [] →
      (analyzeData query log sources outcome).1 = analysisFailText m) := by
  constructor
  · simp [handleSendMessage, hq]
  · intro m hm hv
    subst hm
    exact analyzeData_err_text query log sources m hv

/-- C5 witness: a concrete turn (`hi`, one valid document, failing remote
call) appends the user message then the inline-error model message. -/
theorem send_appends_user_then_model_witness :
    jsTrim "hi".data ≠ [] ∧
    (handleSendMessage "hi".data false [] [demoDoc] (RemoteOutcome.err "boom".data) 0 1 =
      [] ++
        [{ id := (toString 0).data, role := ChatRole.user, text := "hi".data, timestamp := 0 },
         { id := (toString (0 + 1)).data, role := ChatRole.model,
           text := (analyzeData "hi".data [] [demoDoc] (RemoteOutcome.err "boom".data)).1,
           timestamp := 1 }] ∧
     (∀ m, RemoteOutcome.err "boom".data = RemoteOutcome.err m →
       validSourcesOf [demoDoc] ≠ [] →
       (analyzeData "hi".data [] [demoDoc] (RemoteOutcome.err "boom".data)).1 =
         analysisFailText m)) :=
  ⟨by decide,
   send_appends_user_then_model "hi".data [] [demoDoc]
     (RemoteOutcome.err "boom".data) 0 1 (by decide)⟩

/-- C8: the history block of the prompt is built from exactly the most
recent `min n 6` messages — `slice(-6)` drops the oldest messages and the
prompt payload of `analyzeData` contains only the formatted window. -/
theorem history_window_recent_six (history : List ChatMessage) (query : Str)
    (valid : List KnowledgeSource) :
    (historyWindow history).length = min history.length 6 ∧
    history.take (history.length - 6) ++ historyWindow history = history ∧
    analysisPrompt query history valid =
      buildPrompt (assembleContext MAX_TOTAL_CHARS valid)
        (List.intercalate "\n".data ((historyWindow history).map formatMsg)) query := by
  refine ⟨?_, ?_, rfl⟩
  · simp only [historyWindow, List.length_drop]
    omega
  · exact List.take_append_drop _ _

/-- Helper: the row at position `idx` of the mapped list is `csvRow` of the
line at position `idx`, with the running index `start + idx`. -/
theorem csvRows_getElem (header : Str) :
    ∀ (lines : List Str) (start idx : Nat) (line : Str),
      lines[idx]? = some line →
      (csvRows header start lines)[idx]? = some (csvRow header (start + idx) line) := by
  intro lines
  induction lines with
  | nil => intro start idx line h; simp at h
  | cons l ls ih =>
    intro start idx line h
    cases idx with
    | zero =>
      simp at h
      subst h
      simp [csvRows]
    | succ n =>
      simp only [List.getElem?_cons_succ] at h
      have := ih (start + 1) n line h
      simpa [csvRows, Nat.add_assoc, Nat.add_comm 1 n] using this

/-- C3: in the CSV processing of the assembler, the row emitted at index
`idx` is the original line prefixed with its stable row label `[Row_idx]`,
and exactly at the positive multiples of 50 (i.e. at every 50th data row,
the header itself being row 0) it is additionally preceded by the literal
repeated-header marker containing the header line; the assembled CSV
output is these rows joined by newlines. -/
theorem csv_rows_labeled_header_injected (content : Str) (idx : Nat) (line : Str)
    (h : (nonBlankLines content)[idx]? = some line) :
    (csvRows (headerOf content) 0 (nonBlankLines content))[idx]? =
      some ((if 0 < idx ∧ idx % 50 = 0 then repeatedHeaderChunk (headerOf content) else []) ++
        ("[Row_".data ++ (toString idx).data ++ "]".data) ++ ' ' :: line) ∧
    processCsvContent content =
      List.intercalate "\n".data (csvRows (headerOf content) 0 (nonBlankLines content)) := by
  refine ⟨?_, rfl⟩
  have hg := csvRows_getElem (headerOf content) (nonBlankLines content) 0 idx line h
  rw [Nat.zero_add] at hg
  rw [hg]
  unfold csvRow rowLabel
  split
  · simp [List.append_assoc]
  · simp

set_option maxRecDepth 4000 in
/-- C3 witness: on a concrete CSV with a header and 50 data rows, the 50th
data row (index 50, the line `x`) carries the repeated-header marker and
its row label. -/
theorem csv_rows_labeled_header_injected_witness :
    (nonBlankLines demoCsvContent)[50]? = some "x".data ∧
    ((csvRows (headerOf demoCsvContent) 0 (nonBlankLines demoCsvContent))[50]? =
      some ((if 0 < 50 ∧ 50 % 50 = 0 then repeatedHeaderChunk (headerOf demoCsvContent) else []) ++
        ("[Row_".data ++ (toString 50).data ++ "]".data) ++ ' ' :: "x".data) ∧
     processCsvContent demoCsvContent =
       List.intercalate "\n".data
         (csvRows (headerOf demoCsvContent) 0 (nonBlankLines demoCsvContent))) :=
  ⟨rfl, csv_rows_labeled_header_injected demoCsvContent 50 "x".data rfl⟩

/-- Helper: an untruncated source text is the processed content itself. -/
theorem sourceTextOf_untrunc (avail : Int) (pc : Str)
    (h : ¬ avail < (pc.length : Int)) : sourceTextOf avail pc = pc :=
  if_neg h

/-- Helper: a truncated source text has exactly `avail` characters of
content plus the marker. -/
theorem sourceTextOf_trunc_len (avail : Int) (pc : Str)
    (h0 : 0 ≤ avail) (h : avail < (pc.length : Int)) :
    (sourceTextOf avail pc).length = avail.toNat + truncMarker.length := by
  unfold sourceTextOf
  rw [if_pos h, List.length_append, List.length_take]
  have hA := Int.toNat_of_nonneg h0
  omega

/-- Helper: the buffer built by the source loop is the initial buffer
followed by the rendered instrumented entries. -/
theorem assembleLoop_eq_flatten (maxT : Nat) :
    ∀ (src : List KnowledgeSource) (used : Nat) (buf : Str),
      assembleLoop maxT src used buf =
        buf ++ ((assembleEntries maxT src used).map renderEntry).flatten := by
  intro src
  induction src with
  | nil => intro used buf; simp [assembleLoop, assembleEntries]
  | cons s rest ih =>
    intro used buf
    by_cases hc : availSpace maxT used s ≤ 200
    · simp [assembleLoop, assembleEntries, hc]
    · simp only [assembleLoop, assembleEntries, if_neg hc]
      rw [ih]
      simp [renderEntry, List.append_assoc]

/-- Helper: once the used-character count has reached the budget, the loop
appends nothing further (the remaining-budget check fails for every
document, whatever its header and footer lengths). -/
theorem assembleEntries_eq_nil (maxT : Nat) (src : List KnowledgeSource) (used : Nat)
    (h : maxT ≤ used) : assembleEntries maxT src used = [] := by
  cases src with
  | nil => rfl
  | cons s rest =>
    have hc : availSpace maxT used s ≤ 200 := by unfold availSpace; omega
    simp [assembleEntries, hc]

/-- Helper: `renderedLen` distributes over cons. -/
theorem renderedLen_cons (e : KnowledgeSource × Str × Bool)
    (es : List (KnowledgeSource × Str × Bool)) :
    renderedLen (e :: es) = (renderEntry e).length + renderedLen es := by
  simp [renderedLen]

/-- Helper: the length of a rendered entry. -/
theorem renderEntry_length (s : KnowledgeSource) (st : Str) (b : Bool) :
    (renderEntry (s, st, b)).length =
      (fileHeaderOf s).length + st.length + (fileFooterOf s).length := by
  simp [renderEntry, List.length_append]
  omega

/-- Helper: the loop invariant for the budget bound — starting from any
used-character count, the total rendered length never pushes past
`max used (maxT + marker)`. -/
theorem assembleEntries_len_bound (maxT : Nat) :
    ∀ (src : List KnowledgeSource) (used : Nat),
      used + renderedLen (assembleEntries maxT src used) ≤
        max used (maxT + truncMarker.length) := by
  intro src
  induction src with
  | nil => intro used; simp [assembleEntries, renderedLen]
  | cons s rest ih =>
    intro used
    by_cases hc : availSpace maxT used s ≤ 200
    · simp [assembleEntries, hc, renderedLen]
    · have h200 : (200 : Int) < availSpace maxT used s := not_le.mp hc
      by_cases ht : availSpace maxT used s < ((processedContentOf s).length : Int)
      · -- truncated: the new used count is exactly maxT + marker, the loop stops
        have h0 : (0 : Int) ≤ availSpace maxT used s := by omega
        have hA := Int.toNat_of_nonneg h0
        have hdef : availSpace maxT used s = (maxT : Int) - (used : Int) -
            ((fileHeaderOf s).length : Int) - ((fileFooterOf s).length : Int) := rfl
        have hlen := sourceTextOf_trunc_len (availSpace maxT used s) (processedContentOf s) h0 ht
        have hused2 : used + (fileHeaderOf s).length +
            (sourceTextOf (availSpace maxT used s) (processedContentOf s)).length +
            (fileFooterOf s).length = maxT + truncMarker.length := by
          rw [hlen]
          omega
        have hnil := assembleEntries_eq_nil maxT rest
          (used + (fileHeaderOf s).length +
            (sourceTextOf (availSpace maxT used s) (processedContentOf s)).length +
            (fileFooterOf s).length) (by omega)
        simp only [assembleEntries, if_neg hc, hnil]
        rw [renderedLen_cons, renderEntry_length]
        simp only [renderedLen, List.map_nil, List.sum_nil]
        omega
      · -- untruncated: the new used count stays at or below maxT
        have hst := sourceTextOf_untrunc (availSpace maxT used s) (processedContentOf s) ht
        have hple : ((processedContentOf s).length : Int) ≤ availSpace maxT used s := not_lt.mp ht
        have hle : used + (fileHeaderOf s).length + (processedContentOf s).length +
            (fileFooterOf s).length ≤ maxT := by
          unfold availSpace at hple
          omega
        have ihx := ih (used + (fileHeaderOf s).length +
          (sourceTextOf (availSpace maxT used s) (processedContentOf s)).length +
          (fileFooterOf s).length)
        rw [hst] at ihx
        simp only [assembleEntries, if_neg hc]
        rw [renderedLen_cons, renderEntry_length, hst]
        omega

/-- Helper: prepending an element satisfying `p` preserves an all-`p`
`dropLast`. -/
theorem all_dropLast_cons {α : Type} (p : α → Bool) (a : α) (l : List α)
    (hpa : p a = true) (hl : l.dropLast.all p = true) :
    ((a :: l).dropLast.all p) = true := by
  cases l with
  | nil => rfl
  | cons b m =>
    rw [List.dropLast_cons₂, List.all_cons, hpa]
    simpa using hl

/-- Helper: the loop invariant for truncation — every entry except
possibly the final one is untruncated, and either nothing is truncated or
the used-character count has landed exactly on `maxT + marker`. -/
theorem assembleEntries_trunc_inv (maxT : Nat) :
    ∀ (src : List KnowledgeSource) (used : Nat),
      ((assembleEntries maxT src used).dropLast.all (fun e => !e.2.2) = true) ∧
      ((assembleEntries maxT src used).all (fun e => !e.2.2) = true ∨
        used + renderedLen (assembleEntries maxT src used) = maxT + truncMarker.length) := by
  intro src
  induction src with
  | nil => intro used; exact ⟨rfl, Or.inl rfl⟩
  | cons s rest ih =>
    intro used
    by_cases hc : availSpace maxT used s ≤ 200
    · refine ⟨?_, Or.inl ?_⟩ <;> simp [assembleEntries, hc]
    · have h200 : (200 : Int) < availSpace maxT used s := not_le.mp hc
      by_cases ht : availSpace maxT used s < ((processedContentOf s).length : Int)
      · -- truncated entry: it is the last one, and the count lands on maxT + marker
        have h0 : (0 : Int) ≤ availSpace maxT used s := by omega
        have hA := Int.toNat_of_nonneg h0
        have hdef : availSpace maxT used s = (maxT : Int) - (used : Int) -
            ((fileHeaderOf s).length : Int) - ((fileFooterOf s).length : Int) := rfl
        have hlen := sourceTextOf_trunc_len (availSpace maxT used s) (processedContentOf s) h0 ht
        have hused2 : used + (fileHeaderOf s).length +
            (sourceTextOf (availSpace maxT used s) (processedContentOf s)).length +
            (fileFooterOf s).length = maxT + truncMarker.length := by
          rw [hlen]
          omega
        have hnil := assembleEntries_eq_nil maxT rest
          (used + (fileHeaderOf s).length +
            (sourceTextOf (availSpace maxT used s) (processedContentOf s)).length +
            (fileFooterOf s).length) (by omega)
        constructor
        · simp [assembleEntries, if_neg hc, hnil]
        · right
          simp only [assembleEntries, if_neg hc, hnil]
          rw [renderedLen_cons, renderEntry_length]
          simp only [renderedLen, List.map_nil, List.sum_nil]
          omega
      · -- untruncated entry: recurse
        have hst := sourceTextOf_untrunc (availSpace maxT used s) (processedContentOf s) ht
        obtain ⟨ih1, ih2⟩ := ih (used + (fileHeaderOf s).length +
          (sourceTextOf (availSpace maxT used s) (processedContentOf s)).length +
          (fileFooterOf s).length)
        constructor
        · simp only [assembleEntries, if_neg hc]
          apply all_dropLast_cons
          · simp [ht]
          · exact ih1
        · rcases ih2 with hall | hexact
          · left
            simp only [assembleEntries, if_neg hc, List.all_cons]
            simp [ht, hall]
          · right
            simp only [assembleEntries, if_neg hc]
            rw [renderedLen_cons, renderEntry_length, hst]
            rw [hst] at hexact
            omega

/-- C2: for every ordered document set and every budget, the assembled
context has length at most the budget plus the truncation marker's length
(the only overhead the loop can add past the budget): the loop stops
before a document whose header and footer leave at most a 200-character
reserve, and a single over-long document is cut at the remaining budget
with the marker appended. -/
theorem assembled_context_within_budget (validSources : List KnowledgeSource) (maxT : Nat) :
    (assembleContext maxT validSources).length ≤ maxT + truncMarker.length := by
  have hb := assembleEntries_len_bound maxT validSources 0
  unfold assembleContext
  rw [assembleLoop_eq_flatten maxT validSources 0 [], List.nil_append, List.length_flatten]
  have hr : (((assembleEntries maxT validSources 0).map renderEntry).map List.length).sum =
      renderedLen (assembleEntries maxT validSources 0) := rfl
  rw [hr]
  omega

/-- C10: in every assembled context at most one document is truncated and
it is always the last entry of the buffer: every entry before the last is
untruncated, and whenever any truncation happened the buffer length is
exactly `maxT + marker` — past the budget by exactly the truncation
marker's length — so the next iteration's remaining-budget check is
already below the 200-character reserve and the loop appends nothing
more.  The third conjunct ties the instrumented entries back to the
buffer the source builds. -/
theorem context_truncates_at_most_last (validSources : List KnowledgeSource) (maxT : Nat) :
    ((assembleEntries maxT validSources 0).dropLast.all (fun e => !e.2.2) = true) ∧
    ((assembleEntries maxT validSources 0).all (fun e => !e.2.2) = true ∨
      (assembleContext maxT validSources).length = maxT + truncMarker.length) ∧
    assembleContext maxT validSources =
      ((assembleEntries maxT validSources 0).map renderEntry).flatten := by
  obtain ⟨h1, h2⟩ := assembleEntries_trunc_inv maxT validSources 0
  have hctx : assembleContext maxT validSources =
      ((assembleEntries maxT validSources 0).map renderEntry).flatten := by
    unfold assembleContext
    rw [assembleLoop_eq_flatten maxT validSources 0 [], List.nil_append]
  refine ⟨h1, ?_, hctx⟩
  rcases h2 with hall | hlen
  · exact Or.inl hall
  · right
    rw [hctx, List.length_flatten]
    have hr : (((assembleEntries maxT validSources 0).map renderEntry).map List.length).sum =
        renderedLen (assembleEntries maxT validSources 0) := rfl
    rw [hr]
    omega
